import Mathlib

/-
Verification of the MemoryStore document store
(src/packages/memory-store/src/memory-store.ts).

The embedding models JavaScript document values as an untyped tree
(`Value`), queries as expression trees (`Expr` / `Operand`), and the
store as an association list of named collections.  Thrown query errors
are modelled with `Except`.  Modelling conventions, stated once here:

* JavaScript numbers are modelled as integers (no claim exercises
  fractional values, NaN literals or overflow); `undefined` converts to
  NaN, which is modelled as `Option.none` in `toNumber`.
* Strict equality (`===`) on scalars is value equality, which the
  structural equality of `Value` captures.  Object identity (references)
  is not modelled: each stored document is a distinct object in the
  source program, and no claim distinguishes two structurally equal
  objects held by reference.
* Regular expressions are modelled as an opaque test function
  `String → Bool` (the `$matches` operator only calls operand.test).
* Operand shapes that the dynamic source code would crash on with a
  TypeError (for example `$some` applied with a scalar operand, or a
  string method applied to a regular-expression operand) are modelled as
  `QueryError.typeError`.
-/

namespace Layr

/-- Untyped JavaScript-like document values: scalars, arrays and string
keyed objects.  `date` stands for the opaque comparable values mentioned
by the spec (for example Date), whose valueOf is a number. -/
inductive Value where
  | undefined : Value
  | null : Value
  | bool : Bool → Value
  | num : Int → Value
  | str : String → Value
  | date : Int → Value
  | arr : List Value → Value
  | obj : List (String × Value) → Value

mutual

/-- Structural equality on values; on scalars this coincides with the
JavaScript strict equality used by the source. -/
def beqValue : Value → Value → Bool
  | .undefined, .undefined => true
  | .null, .null => true
  | .bool a, .bool b => a == b
  | .num a, .num b => a == b
  | .str a, .str b => a == b
  | .date a, .date b => a == b
  | .arr xs, .arr ys => beqValueList xs ys
  | .obj fs, .obj gs => beqFieldList fs gs
  | _, _ => false

/-- Elementwise equality of value lists. -/
def beqValueList : List Value → List Value → Bool
  | [], [] => true
  | x :: xs, y :: ys => beqValue x y && beqValueList xs ys
  | _, _ => false

/-- Elementwise equality of object field lists. -/
def beqFieldList : List (String × Value) → List (String × Value) → Bool
  | [], [] => true
  | (k, v) :: xs, (l, w) :: ys => k == l && beqValue v w && beqFieldList xs ys
  | _, _ => false

end

mutual

theorem beqValue_iff : ∀ a b : Value, beqValue a b = true ↔ a = b
  | .undefined, b => by cases b <;> simp [beqValue]
  | .null, b => by cases b <;> simp [beqValue]
  | .bool a, b => by cases b <;> simp [beqValue]
  | .num a, b => by cases b <;> simp [beqValue]
  | .str a, b => by cases b <;> simp [beqValue]
  | .date a, b => by cases b <;> simp [beqValue]
  | .arr xs, b => by
    cases b <;> simp [beqValue]
    exact beqValueList_iff xs _
  | .obj fs, b => by
    cases b <;> simp [beqValue]
    exact beqFieldList_iff fs _

theorem beqValueList_iff : ∀ xs ys : List Value, beqValueList xs ys = true ↔ xs = ys
  | [], ys => by cases ys <;> simp [beqValueList]
  | x :: xs, ys => by
    cases ys with
    | nil => simp [beqValueList]
    | cons y ys =>
      simp only [beqValueList, Bool.and_eq_true, List.cons.injEq]
      exact and_congr (beqValue_iff x y) (beqValueList_iff xs ys)

theorem beqFieldList_iff :
    ∀ fs gs : List (String × Value), beqFieldList fs gs = true ↔ fs = gs
  | [], gs => by cases gs <;> simp [beqFieldList]
  | (k, v) :: fs, gs => by
    cases gs with
    | nil => simp [beqFieldList]
    | cons g gs =>
      obtain ⟨l, w⟩ := g
      simp only [beqFieldList, Bool.and_eq_true, List.cons.injEq, Prod.mk.injEq,
        beq_iff_eq]
      rw [beqValue_iff v w, beqFieldList_iff fs gs, and_assoc]

end

instance : DecidableEq Value := fun a b => decidable_of_iff _ (beqValue_iff a b)

/-- The optional-chained call value?.valueOf() from the $equal branch
(memory-store.ts line 216): on null or undefined the optional chaining
yields undefined; a Date unwraps to its numeric value; every other value
is returned unchanged. -/
def chainValueOf : Value → Value
  | .undefined => .undefined
  | .null => .undefined
  | .date n => .num n
  | v => v

/-- JavaScript ToNumber on the modelled domain, `none` meaning NaN.
String to number parsing covers the empty string (0) and optional-sign
decimal integers; other strings, arrays and objects are mapped to NaN
(an approximation recorded in the header comment; no claim exercises
ordered comparison on such values). -/
def decimalDigit (c : Char) : Option Nat :=
  if c.isDigit then some (c.toNat - 48) else none

/-- Accumulating decimal parser over a character list. -/
def decimalToNatAux : List Char → Nat → Option Nat
  | [], acc => some acc
  | c :: rest, acc =>
    match decimalDigit c with
    | some d => decimalToNatAux rest (acc * 10 + d)
    | none => none

/-- Parses a nonempty all-digit character list as a natural number. -/
def decimalToNat : List Char → Option Nat
  | [] => none
  | cs => decimalToNatAux cs 0

/-- Parses an optional-sign decimal integer. -/
def parseDecimalInt : List Char → Option Int
  | '-' :: rest => (decimalToNat rest).map (fun n => -(n : Int))
  | cs => (decimalToNat cs).map (fun n => (n : Int))

def toNumber : Value → Option Int
  | .undefined => none
  | .null => some 0
  | .bool b => some (if b then 1 else 0)
  | .num n => some n
  | .date n => some n
  | .str s => if s = "" then some 0 else parseDecimalInt s.toList
  | .arr _ => none
  | .obj _ => none

/-- JavaScript abstract relational comparison a < b: if both operands
are strings they compare lexicographically, otherwise both convert to
numbers and any NaN makes the comparison false. -/
def jsLess (a b : Value) : Bool :=
  match a, b with
  | .str s, .str t => decide (s < t)
  | _, _ =>
    match toNumber a, toNumber b with
    | some m, some n => decide (m < n)
    | _, _ => false

/-- JavaScript a <= b: the negation of b < a, except that NaN on either
side makes the comparison false. -/
def jsLessEq (a b : Value) : Bool :=
  match a, b with
  | .str s, .str t => !decide (t < s)
  | _, _ =>
    match toNumber a, toNumber b with
    | some m, some n => decide (m ≤ n)
    | _, _ => false

mutual

/-- JavaScript ToString on the modelled domain (used by the string
operators when coercing an operand). -/
def jsToString : Value → String
  | .undefined => "undefined"
  | .null => "null"
  | .bool b => if b then "true" else "false"
  | .num n => toString n
  | .str s => s
  | .date n => toString n
  | .arr xs => jsToStringList xs
  | .obj _ => "[object Object]"

/-- Array ToString: elements joined by commas. -/
def jsToStringList : List Value → String
  | [] => ""
  | [x] => jsToStringElem x
  | x :: rest => jsToStringElem x ++ "," ++ jsToStringList rest

/-- Inside a joined array, null and undefined print as the empty
string. -/
def jsToStringElem : Value → String
  | .undefined => ""
  | .null => ""
  | v => jsToString v

end

/-- Prefix test on character lists. -/
def charListIsPrefix : List Char → List Char → Bool
  | [], _ => true
  | _ :: _, [] => false
  | a :: as, b :: bs => a == b && charListIsPrefix as bs

/-- Substring search on character lists. -/
def charListContains (hay needle : List Char) : Bool :=
  if charListIsPrefix needle hay then true
  else
    match hay with
    | [] => false
    | _ :: rest => charListContains rest needle

/-- String containment, as String.prototype.includes. -/
def strIncludes (s t : String) : Bool :=
  charListContains s.toList t.toList

/-- First binding of a key in an object field list, undefined when
absent. -/
def lookupField : List (String × Value) → String → Value
  | [], _ => .undefined
  | (k, w) :: rest, key => if k = key then w else lookupField rest key

/-- Array element at an index, undefined when out of range. -/
def indexValue : List Value → Nat → Value
  | [], _ => .undefined
  | x :: _, 0 => x
  | _ :: rest, i + 1 => indexValue rest i

/-- One property access step, as the bracket access document[key] and as
one path segment of the lodash get used by the evaluator: objects look
the key up, arrays accept decimal indices, every other receiver yields
undefined. -/
def getProperty (v : Value) (key : String) : Value :=
  match v with
  | .obj fields => lookupField fields key
  | .arr xs =>
    match decimalToNat key.toList with
    | some i => indexValue xs i
    | none => .undefined
  | _ => .undefined

/-- Splitting a dotted path into segments (the behaviour of
String.prototype.split with a dot separator). -/
def splitPathAux : List Char → List Char → List String
  | [], acc => [String.mk acc.reverse]
  | c :: rest, acc =>
    if c = '.' then String.mk acc.reverse :: splitPathAux rest []
    else splitPathAux rest (c :: acc)

/-- Segments of a dotted path. -/
def splitPath (path : String) : List String :=
  splitPathAux path.toList []

/-- The lodash get(document, path) used by the evaluator
(memory-store.ts line 197): the dotted path splits into segments, each
resolved by one property access; a missing intermediate value makes the
whole result undefined.  (The bracket spelling a[0].b of lodash paths is
not modelled; the equivalent dotted spelling a.0.b is.) -/
def lodashGet (document : Value) (path : String) : Value :=
  (splitPath path).foldl getProperty document

/-- Resolution of the attribute value for one expression
(memory-store.ts line 197): the empty path selects the document itself. -/
def resolveAttributeValue (document : Value) (path : String) : Value :=
  if path ≠ "" then lodashGet document path else document

theorem sizeOf_value_pos (v : Value) : 0 < sizeOf v := by
  cases v <;> simp_arith

theorem sizeOf_lookupField_le (fields : List (String × Value)) (key : String) :
    sizeOf (lookupField fields key) ≤ sizeOf fields := by
  induction fields with
  | nil => simp [lookupField]
  | cons f rest ih =>
    obtain ⟨k, w⟩ := f
    simp only [lookupField]
    split
    · simp_arith
    · calc sizeOf (lookupField rest key) ≤ sizeOf rest := ih
        _ ≤ _ := by simp_arith

theorem sizeOf_indexValue_le (xs : List Value) (i : Nat) :
    sizeOf (indexValue xs i) ≤ sizeOf xs := by
  induction xs generalizing i with
  | nil => simp [indexValue]
  | cons x rest ih =>
    cases i with
    | zero => simp_arith [indexValue]
    | succ j =>
      calc sizeOf (indexValue rest j) ≤ sizeOf rest := ih j
        _ ≤ _ := by simp_arith

theorem sizeOf_getProperty_le (v : Value) (key : String) :
    sizeOf (getProperty v key) ≤ sizeOf v := by
  cases v <;> simp only [getProperty] <;> try simp_arith
  · case arr xs =>
    cases decimalToNat key.data with
    | none => simp_arith
    | some i =>
      calc sizeOf (indexValue xs i) ≤ sizeOf xs := sizeOf_indexValue_le xs i
        _ ≤ _ := by simp_arith
  · case obj fields =>
    calc sizeOf (lookupField fields key) ≤ sizeOf fields :=
        sizeOf_lookupField_le fields key
      _ ≤ _ := by simp_arith

theorem sizeOf_foldl_getProperty_le (segments : List String) (document : Value) :
    sizeOf (segments.foldl getProperty document) ≤ sizeOf document := by
  induction segments generalizing document with
  | nil => simp
  | cons s rest ih =>
    calc sizeOf ((s :: rest).foldl getProperty document)
        = sizeOf (rest.foldl getProperty (getProperty document s)) := by
          simp [List.foldl]
      _ ≤ sizeOf (getProperty document s) := ih _
      _ ≤ sizeOf document := sizeOf_getProperty_le document s

theorem sizeOf_resolveAttributeValue_le (document : Value) (path : String) :
    sizeOf (resolveAttributeValue document path) ≤ sizeOf document := by
  unfold resolveAttributeValue lodashGet
  split
  · exact sizeOf_foldl_getProperty_le _ document
  · exact Nat.le_refl _

mutual

/-- A query expression, the triple (path, operator, operand) of the
source (the Expression type of memory-store.ts). -/
inductive Expr where
  | mk : String → String → Operand → Expr

/-- The operand of an expression.  The source types it as any; the
shapes actually consumed by the evaluator are a plain value, a regular
expression (modelled as its test function), a sub-expression list (for
$some, $every and $not) and a list of sub-expression lists (for $and,
$or and $nor). -/
inductive Operand where
  | value : Value → Operand
  | pattern : (String → Bool) → Operand
  | exprs : List Expr → Operand
  | exprss : List (List Expr) → Operand

end

/-- Path component of an expression. -/
def Expr.path : Expr → String
  | .mk p _ _ => p

/-- Operator component of an expression. -/
def Expr.operator : Expr → String
  | .mk _ o _ => o

/-- Operand component of an expression. -/
def Expr.operand : Expr → Operand
  | .mk _ _ od => od

/-- The query error thrown by the evaluator: the unsupported-operator
error of memory-store.ts lines 345-347 (carrying the offending operator
and the path), or a TypeError of the JavaScript runtime for operand
shapes outside the typed contract. -/
inductive QueryError where
  | unsupportedOperator : String → String → QueryError
  | typeError : QueryError
deriving DecidableEq

deriving instance DecidableEq for Except

/-- The $equal test attributeValue?.valueOf() === operand?.valueOf()
(memory-store.ts line 216).  A non-value operand is a distinct object
reference and never strictly equal to an attribute value. -/
def strictEqualsOperand (attributeValue : Value) (operand : Operand) : Bool :=
  match operand with
  | .value v => chainValueOf attributeValue == chainValueOf v
  | _ => false

/-- The $greaterThan test attributeValue > operand. -/
def greaterThanOperand (attributeValue : Value) (operand : Operand) : Bool :=
  match operand with
  | .value v => jsLess v attributeValue
  | _ => false

/-- The $greaterThanOrEqual test attributeValue >= operand. -/
def greaterThanOrEqualOperand (attributeValue : Value) (operand : Operand) : Bool :=
  match operand with
  | .value v => jsLessEq v attributeValue
  | _ => false

/-- The $lessThan test attributeValue < operand. -/
def lessThanOperand (attributeValue : Value) (operand : Operand) : Bool :=
  match operand with
  | .value v => jsLess attributeValue v
  | _ => false

/-- The $lessThanOrEqual test attributeValue <= operand. -/
def lessThanOrEqualOperand (attributeValue : Value) (operand : Operand) : Bool :=
  match operand with
  | .value v => jsLessEq attributeValue v
  | _ => false

/-- The $any test operand.includes(attributeValue): membership for an
array operand, substring containment for a string operand, a TypeError
for receivers without an includes method. -/
def anyIncludesOperand (attributeValue : Value) (operand : Operand) :
    Except QueryError Bool :=
  match operand with
  | .value (.arr xs) => .ok (xs.contains attributeValue)
  | .value (.str s) => .ok (strIncludes s (jsToString attributeValue))
  | _ => .error .typeError

/-- The $includes test on a string attribute: the operand coerces to a
string (String.prototype.includes rejects regular expressions with a
TypeError). -/
def stringIncludesOperand (s : String) (operand : Operand) :
    Except QueryError Bool :=
  match operand with
  | .value v => .ok (strIncludes s (jsToString v))
  | _ => .error .typeError

/-- The $startsWith test on a string attribute. -/
def stringStartsWithOperand (s : String) (operand : Operand) :
    Except QueryError Bool :=
  match operand with
  | .value v => .ok (s.startsWith (jsToString v))
  | _ => .error .typeError

/-- The $endsWith test on a string attribute. -/
def stringEndsWithOperand (s : String) (operand : Operand) :
    Except QueryError Bool :=
  match operand with
  | .value v => .ok (s.endsWith (jsToString v))
  | _ => .error .typeError

/-- The $matches test operand.test(attributeValue) on a string
attribute. -/
def patternTestOperand (s : String) (operand : Operand) :
    Except QueryError Bool :=
  match operand with
  | .pattern test => .ok (test s)
  | _ => .error .typeError

/-- The $length test attributeValue.length === operand: strict equality
of a number with the operand. -/
def lengthEqualsOperand (n : Nat) (operand : Operand) : Bool :=
  match operand with
  | .value (.num m) => m == (n : Int)
  | _ => false

mutual

/-- The expression-list matcher of memory-store.ts lines 195-205: a
short-circuiting AND over the sibling expressions, resolving each
attribute value by path; a thrown query error is the Except error
branch. -/
def documentIsMatchingExpressions (document : Value) (expressions : List Expr) :
    Except QueryError Bool :=
  match expressions with
  | [] => .ok true
  | .mk path operator operand :: rest =>
    match evaluateExpression (resolveAttributeValue document path) operator operand path with
    | .error e => .error e
    | .ok false => .ok false
    | .ok true => documentIsMatchingExpressions document rest
termination_by sizeOf document + sizeOf expressions
decreasing_by
  all_goals simp_wf
  all_goals try simp_arith
  all_goals
    have h := sizeOf_resolveAttributeValue_le document path
    omega

/-- The operator dispatch of memory-store.ts lines 207-348, in source
order; an operator outside the closed set throws the
unsupported-operator error carrying the operator and the path. -/
def evaluateExpression (attributeValue : Value) (operator : String) (operand : Operand)
    (path : String) : Except QueryError Bool :=
  match operator with
  | "$equal" => .ok (strictEqualsOperand attributeValue operand)
  | "$notEqual" => .ok (!strictEqualsOperand attributeValue operand)
  | "$greaterThan" => .ok (greaterThanOperand attributeValue operand)
  | "$greaterThanOrEqual" => .ok (greaterThanOrEqualOperand attributeValue operand)
  | "$lessThan" => .ok (lessThanOperand attributeValue operand)
  | "$lessThanOrEqual" => .ok (lessThanOrEqualOperand attributeValue operand)
  | "$any" => anyIncludesOperand attributeValue operand
  | "$includes" =>
    match attributeValue with
    | .str s => stringIncludesOperand s operand
    | _ => .ok false
  | "$startsWith" =>
    match attributeValue with
    | .str s => stringStartsWithOperand s operand
    | _ => .ok false
  | "$endsWith" =>
    match attributeValue with
    | .str s => stringEndsWithOperand s operand
    | _ => .ok false
  | "$matches" =>
    match attributeValue with
    | .str s => patternTestOperand s operand
    | _ => .ok false
  | "$some" =>
    match attributeValue with
    | .arr subdocuments => someSubdocumentMatches subdocuments operand
    | _ => .ok false
  | "$every" =>
    match attributeValue with
    | .arr subdocuments => everySubdocumentMatches subdocuments operand
    | _ => .ok false
  | "$length" =>
    match attributeValue with
    | .arr xs => .ok (lengthEqualsOperand xs.length operand)
    | _ => .ok false
  | "$not" =>
    match operand with
    | .exprs subexpressions =>
      match documentIsMatchingExpressions attributeValue subexpressions with
      | .error e => .error e
      | .ok b => .ok (!b)
    | _ => .error .typeError
  | "$and" =>
    match operand with
    | .exprss subexpressionLists => allListsMatch attributeValue subexpressionLists
    | _ => .error .typeError
  | "$or" =>
    match operand with
    | .exprss subexpressionLists => someListMatches attributeValue subexpressionLists
    | _ => .error .typeError
  | "$nor" =>
    match operand with
    | .exprss subexpressionLists =>
      match someListMatches attributeValue subexpressionLists with
      | .error e => .error e
      | .ok b => .ok (!b)
    | _ => .error .typeError
  | _ => .error (.unsupportedOperator operator path)
termination_by sizeOf attributeValue + sizeOf operand + 1
decreasing_by all_goals (simp_wf; try simp_arith)

/-- The $some quantifier subdocuments.some(...): the operand is read as
a sub-expression list once an element is visited, matching the dynamic
behaviour (an empty array never touches the operand). -/
def someSubdocumentMatches (subdocuments : List Value) (operand : Operand) :
    Except QueryError Bool :=
  match subdocuments, operand with
  | [], _ => .ok false
  | s :: rest, .exprs subexpressions =>
    match documentIsMatchingExpressions s subexpressions with
    | .error e => .error e
    | .ok true => .ok true
    | .ok false => someSubdocumentMatches rest (.exprs subexpressions)
  | _ :: _, _ => .error .typeError
termination_by sizeOf subdocuments + sizeOf operand
decreasing_by all_goals (simp_wf; try simp_arith)

/-- The $every quantifier subdocuments.every(...). -/
def everySubdocumentMatches (subdocuments : List Value) (operand : Operand) :
    Except QueryError Bool :=
  match subdocuments, operand with
  | [], _ => .ok true
  | s :: rest, .exprs subexpressions =>
    match documentIsMatchingExpressions s subexpressions with
    | .error e => .error e
    | .ok false => .ok false
    | .ok true => everySubdocumentMatches rest (.exprs subexpressions)
  | _ :: _, _ => .error .typeError
termination_by sizeOf subdocuments + sizeOf operand
decreasing_by all_goals (simp_wf; try simp_arith)

/-- The disjunction over sub-expression lists used by $or and $nor. -/
def someListMatches (attributeValue : Value) (subexpressionLists : List (List Expr)) :
    Except QueryError Bool :=
  match subexpressionLists with
  | [] => .ok false
  | es :: rest =>
    match documentIsMatchingExpressions attributeValue es with
    | .error e => .error e
    | .ok true => .ok true
    | .ok false => someListMatches attributeValue rest
termination_by sizeOf attributeValue + sizeOf subexpressionLists
decreasing_by all_goals (simp_wf; try simp_arith)

/-- The conjunction over sub-expression lists used by $and. -/
def allListsMatch (attributeValue : Value) (subexpressionLists : List (List Expr)) :
    Except QueryError Bool :=
  match subexpressionLists with
  | [] => .ok true
  | es :: rest =>
    match documentIsMatchingExpressions attributeValue es with
    | .error e => .error e
    | .ok false => .ok false
    | .ok true => allListsMatch attributeValue rest
termination_by sizeOf attributeValue + sizeOf subexpressionLists
decreasing_by all_goals (simp_wf; try simp_arith)

end

mutual

/-- Fuel-indexed twin of `documentIsMatchingExpressions`: one unit of
fuel is consumed at every recursive call, `none` meaning the fuel ran
out.  It is structurally recursive, hence computable by the kernel, and
the bridge lemmas below show that fuel bounded by the structural size of
the query always suffices — the termination argument of the spec. -/
def matchFuel : Nat → Value → List Expr → Option (Except QueryError Bool)
  | 0, _, _ => none
  | _ + 1, _, [] => some (.ok true)
  | fuel + 1, document, .mk path operator operand :: rest =>
    match evalFuel fuel (resolveAttributeValue document path) operator operand path with
    | none => none
    | some (.error e) => some (.error e)
    | some (.ok false) => some (.ok false)
    | some (.ok true) => matchFuel fuel document rest

/-- Fuel-indexed twin of `evaluateExpression`. -/
def evalFuel : Nat → Value → String → Operand → String → Option (Except QueryError Bool)
  | 0, _, _, _, _ => none
  | fuel + 1, attributeValue, operator, operand, path =>
    match operator with
    | "$equal" => some (.ok (strictEqualsOperand attributeValue operand))
    | "$notEqual" => some (.ok (!strictEqualsOperand attributeValue operand))
    | "$greaterThan" => some (.ok (greaterThanOperand attributeValue operand))
    | "$greaterThanOrEqual" => some (.ok (greaterThanOrEqualOperand attributeValue operand))
    | "$lessThan" => some (.ok (lessThanOperand attributeValue operand))
    | "$lessThanOrEqual" => some (.ok (lessThanOrEqualOperand attributeValue operand))
    | "$any" => some (anyIncludesOperand attributeValue operand)
    | "$includes" =>
      match attributeValue with
      | .str s => some (stringIncludesOperand s operand)
      | _ => some (.ok false)
    | "$startsWith" =>
      match attributeValue with
      | .str s => some (stringStartsWithOperand s operand)
      | _ => some (.ok false)
    | "$endsWith" =>
      match attributeValue with
      | .str s => some (stringEndsWithOperand s operand)
      | _ => some (.ok false)
    | "$matches" =>
      match attributeValue with
      | .str s => some (patternTestOperand s operand)
      | _ => some (.ok false)
    | "$some" =>
      match attributeValue with
      | .arr subdocuments => someSubFuel fuel subdocuments operand
      | _ => some (.ok false)
    | "$every" =>
      match attributeValue with
      | .arr subdocuments => everySubFuel fuel subdocuments operand
      | _ => some (.ok false)
    | "$length" =>
      match attributeValue with
      | .arr xs => some (.ok (lengthEqualsOperand xs.length operand))
      | _ => some (.ok false)
    | "$not" =>
      match operand with
      | .exprs subexpressions =>
        match matchFuel fuel attributeValue subexpressions with
        | none => none
        | some (.error e) => some (.error e)
        | some (.ok b) => some (.ok (!b))
      | _ => some (.error .typeError)
    | "$and" =>
      match operand with
      | .exprss subexpressionLists => allListsFuel fuel attributeValue subexpressionLists
      | _ => some (.error .typeError)
    | "$or" =>
      match operand with
      | .exprss subexpressionLists => someListFuel fuel attributeValue subexpressionLists
      | _ => some (.error .typeError)
    | "$nor" =>
      match operand with
      | .exprss subexpressionLists =>
        match someListFuel fuel attributeValue subexpressionLists with
        | none => none
        | some (.error e) => some (.error e)
        | some (.ok b) => some (.ok (!b))
      | _ => some (.error .typeError)
    | _ => some (.error (.unsupportedOperator operator path))

/-- Fuel-indexed twin of `someSubdocumentMatches`. -/
def someSubFuel : Nat → List Value → Operand → Option (Except QueryError Bool)
  | 0, _, _ => none
  | _ + 1, [], _ => some (.ok false)
  | fuel + 1, s :: rest, .exprs subexpressions =>
    match matchFuel fuel s subexpressions with
    | none => none
    | some (.error e) => some (.error e)
    | some (.ok true) => some (.ok true)
    | some (.ok false) => someSubFuel fuel rest (.exprs subexpressions)
  | _ + 1, _ :: _, _ => some (.error .typeError)

/-- Fuel-indexed twin of `everySubdocumentMatches`. -/
def everySubFuel : Nat → List Value → Operand → Option (Except QueryError Bool)
  | 0, _, _ => none
  | _ + 1, [], _ => some (.ok true)
  | fuel + 1, s :: rest, .exprs subexpressions =>
    match matchFuel fuel s subexpressions with
    | none => none
    | some (.error e) => some (.error e)
    | some (.ok false) => some (.ok false)
    | some (.ok true) => everySubFuel fuel rest (.exprs subexpressions)
  | _ + 1, _ :: _, _ => some (.error .typeError)

/-- Fuel-indexed twin of `someListMatches`. -/
def someListFuel : Nat → Value → List (List Expr) → Option (Except QueryError Bool)
  | 0, _, _ => none
  | _ + 1, _, [] => some (.ok false)
  | fuel + 1, attributeValue, es :: rest =>
    match matchFuel fuel attributeValue es with
    | none => none
    | some (.error e) => some (.error e)
    | some (.ok true) => some (.ok true)
    | some (.ok false) => someListFuel fuel attributeValue rest

/-- Fuel-indexed twin of `allListsMatch`. -/
def allListsFuel : Nat → Value → List (List Expr) → Option (Except QueryError Bool)
  | 0, _, _ => none
  | _ + 1, _, [] => some (.ok true)
  | fuel + 1, attributeValue, es :: rest =>
    match matchFuel fuel attributeValue es with
    | none => none
    | some (.error e) => some (.error e)
    | some (.ok false) => some (.ok false)
    | some (.ok true) => allListsFuel fuel attributeValue rest

end

set_option maxHeartbeats 3200000 in
/-- Agreement of the fuel-indexed evaluator with the evaluator: fuel
bounded below by the structural size of the inputs never runs out.
Every recursive call consumes one unit of fuel, so this is the
termination argument of the spec made quantitative: the recursion depth
is bounded by the structural size of the document and the expression
tree. -/
theorem fuelAgrees : ∀ fuel : Nat,
    (∀ document expressions,
      sizeOf document + sizeOf expressions < fuel →
      matchFuel fuel document expressions =
        some (documentIsMatchingExpressions document expressions)) ∧
    (∀ attributeValue operator operand path,
      sizeOf attributeValue + sizeOf operand + 1 < fuel →
      evalFuel fuel attributeValue operator operand path =
        some (evaluateExpression attributeValue operator operand path)) ∧
    (∀ subdocuments operand,
      sizeOf subdocuments + sizeOf operand < fuel →
      someSubFuel fuel subdocuments operand =
        some (someSubdocumentMatches subdocuments operand)) ∧
    (∀ subdocuments operand,
      sizeOf subdocuments + sizeOf operand < fuel →
      everySubFuel fuel subdocuments operand =
        some (everySubdocumentMatches subdocuments operand)) ∧
    (∀ attributeValue subexpressionLists,
      sizeOf attributeValue + sizeOf subexpressionLists < fuel →
      someListFuel fuel attributeValue subexpressionLists =
        some (someListMatches attributeValue subexpressionLists)) ∧
    (∀ attributeValue subexpressionLists,
      sizeOf attributeValue + sizeOf subexpressionLists < fuel →
      allListsFuel fuel attributeValue subexpressionLists =
        some (allListsMatch attributeValue subexpressionLists)) := by
  intro fuel
  induction fuel with
  | zero =>
    exact ⟨fun _ _ h => (Nat.not_lt_zero _ h).elim,
      fun _ _ _ _ h => (Nat.not_lt_zero _ h).elim,
      fun _ _ h => (Nat.not_lt_zero _ h).elim,
      fun _ _ h => (Nat.not_lt_zero _ h).elim,
      fun _ _ h => (Nat.not_lt_zero _ h).elim,
      fun _ _ h => (Nat.not_lt_zero _ h).elim⟩
  | succ n ih =>
    obtain ⟨ihm, ihe, ihs, ihv, ihl, iha⟩ := ih
    refine ⟨?_, ?_, ?_, ?_, ?_, ?_⟩
    · intro d es h
      cases es with
      | nil => simp [matchFuel, documentIsMatchingExpressions]
      | cons e rest =>
        obtain ⟨p, o, od⟩ := e
        have hr := sizeOf_resolveAttributeValue_le d p
        simp_arith at h
        simp only [matchFuel, documentIsMatchingExpressions]
        rw [ihe (resolveAttributeValue d p) o od p (by omega)]
        cases evaluateExpression (resolveAttributeValue d p) o od p with
        | error e => simp
        | ok b =>
          cases b
          · simp
          · simpa using ihm d rest (by omega)
    · intro av o od p h
      rcases eq_or_ne o "$equal" with rfl | hne1
      · simp [evalFuel, evaluateExpression]
      rcases eq_or_ne o "$notEqual" with rfl | hne2
      · simp [evalFuel, evaluateExpression]
      rcases eq_or_ne o "$greaterThan" with rfl | hne3
      · simp [evalFuel, evaluateExpression]
      rcases eq_or_ne o "$greaterThanOrEqual" with rfl | hne4
      · simp [evalFuel, evaluateExpression]
      rcases eq_or_ne o "$lessThan" with rfl | hne5
      · simp [evalFuel, evaluateExpression]
      rcases eq_or_ne o "$lessThanOrEqual" with rfl | hne6
      · simp [evalFuel, evaluateExpression]
      rcases eq_or_ne o "$any" with rfl | hne7
      · simp [evalFuel, evaluateExpression]
      rcases eq_or_ne o "$includes" with rfl | hne8
      · cases av <;> simp [evalFuel, evaluateExpression]
      rcases eq_or_ne o "$startsWith" with rfl | hne9
      · cases av <;> simp [evalFuel, evaluateExpression]
      rcases eq_or_ne o "$endsWith" with rfl | hne10
      · cases av <;> simp [evalFuel, evaluateExpression]
      rcases eq_or_ne o "$matches" with rfl | hne11
      · cases av <;> simp [evalFuel, evaluateExpression]
      rcases eq_or_ne o "$some" with rfl | hne12
      · cases av
        case arr subs =>
          simp only [evalFuel, evaluateExpression]
          simp_arith at h
          exact ihs subs od (by omega)
        all_goals simp [evalFuel, evaluateExpression]
      rcases eq_or_ne o "$every" with rfl | hne13
      · cases av
        case arr subs =>
          simp only [evalFuel, evaluateExpression]
          simp_arith at h
          exact ihv subs od (by omega)
        all_goals simp [evalFuel, evaluateExpression]
      rcases eq_or_ne o "$length" with rfl | hne14
      · cases av <;> simp [evalFuel, evaluateExpression]
      rcases eq_or_ne o "$not" with rfl | hne15
      · cases od
        case exprs es =>
          simp only [evalFuel, evaluateExpression]
          simp_arith at h
          rw [ihm av es (by omega)]
          cases documentIsMatchingExpressions av es with
          | error e => simp
          | ok b => simp
        all_goals simp [evalFuel, evaluateExpression]
      rcases eq_or_ne o "$and" with rfl | hne16
      · cases od
        case exprss ess =>
          simp only [evalFuel, evaluateExpression]
          simp_arith at h
          exact iha av ess (by omega)
        all_goals simp [evalFuel, evaluateExpression]
      rcases eq_or_ne o "$or" with rfl | hne17
      · cases od
        case exprss ess =>
          simp only [evalFuel, evaluateExpression]
          simp_arith at h
          exact ihl av ess (by omega)
        all_goals simp [evalFuel, evaluateExpression]
      rcases eq_or_ne o "$nor" with rfl | hne18
      · cases od
        case exprss ess =>
          simp only [evalFuel, evaluateExpression]
          simp_arith at h
          rw [ihl av ess (by omega)]
          cases someListMatches av ess with
          | error e => simp
          | ok b => simp
        all_goals simp [evalFuel, evaluateExpression]
      simp [evalFuel, evaluateExpression, hne1, hne2, hne3, hne4, hne5, hne6,
        hne7, hne8, hne9, hne10, hne11, hne12, hne13, hne14, hne15, hne16,
        hne17, hne18]
    · intro subs od h
      cases subs with
      | nil => simp [someSubFuel, someSubdocumentMatches]
      | cons s rest =>
        cases od
        case exprs es =>
          simp only [someSubFuel, someSubdocumentMatches]
          simp_arith at h
          rw [ihm s es (by omega)]
          cases documentIsMatchingExpressions s es with
          | error e => simp
          | ok b =>
            cases b
            · simpa using ihs rest (.exprs es) (by simp_arith; omega)
            · simp
        all_goals simp [someSubFuel, someSubdocumentMatches]
    · intro subs od h
      cases subs with
      | nil => simp [everySubFuel, everySubdocumentMatches]
      | cons s rest =>
        cases od
        case exprs es =>
          simp only [everySubFuel, everySubdocumentMatches]
          simp_arith at h
          rw [ihm s es (by omega)]
          cases documentIsMatchingExpressions s es with
          | error e => simp
          | ok b =>
            cases b
            · simp
            · simpa using ihv rest (.exprs es) (by simp_arith; omega)
        all_goals simp [everySubFuel, everySubdocumentMatches]
    · intro av ess h
      cases ess with
      | nil => simp [someListFuel, someListMatches]
      | cons es rest =>
        simp only [someListFuel, someListMatches]
        simp_arith at h
        rw [ihm av es (by omega)]
        cases documentIsMatchingExpressions av es with
        | error e => simp
        | ok b =>
          cases b
          · simpa using ihl av rest (by omega)
          · simp
    · intro av ess h
      cases ess with
      | nil => simp [allListsFuel, allListsMatch]
      | cons es rest =>
        simp only [allListsFuel, allListsMatch]
        simp_arith at h
        rw [ihm av es (by omega)]
        cases documentIsMatchingExpressions av es with
        | error e => simp
        | ok b =>
          cases b
          · simp
          · simpa using iha av rest (by omega)

/-- Concrete-evaluation helper: a run of the fuel twin at sufficient
fuel determines the evaluator result. -/
theorem documentIsMatchingExpressions_eq_of_matchFuel (document : Value)
    (expressions : List Expr) (fuel : Nat) (r : Except QueryError Bool)
    (hfuel : sizeOf document + sizeOf expressions < fuel)
    (hrun : matchFuel fuel document expressions = some r) :
    documentIsMatchingExpressions document expressions = r := by
  have hagree := (fuelAgrees fuel).1 document expressions hfuel
  rw [hrun] at hagree
  exact (Option.some.inj hagree).symm

/-- Concrete-evaluation helper for the operator dispatcher. -/
theorem evaluateExpression_eq_of_evalFuel (attributeValue : Value)
    (operator : String) (operand : Operand) (path : String) (fuel : Nat)
    (r : Except QueryError Bool)
    (hfuel : sizeOf attributeValue + sizeOf operand + 1 < fuel)
    (hrun : evalFuel fuel attributeValue operator operand path = some r) :
    evaluateExpression attributeValue operator operand path = r := by
  have hagree := (fuelAgrees fuel).2.1 attributeValue operator operand path hfuel
  rw [hrun] at hagree
  exact (Option.some.inj hagree).symm

/-- Monadic filter mirroring documents.filter(...) with a throwing
predicate (memory-store.ts line 192): the predicate runs left to right
and the first thrown error aborts the remainder. -/
def filterMatching (expressions : List Expr) : List Value → Except QueryError (List Value)
  | [] => .ok []
  | document :: rest =>
    match documentIsMatchingExpressions document expressions with
    | .error e => .error e
    | .ok b =>
      match filterMatching expressions rest with
      | .error e => .error e
      | .ok tail => .ok (if b then document :: tail else tail)

/-- filterDocuments of memory-store.ts lines 187-193, including the
empty-expression-list shortcut. -/
def filterDocuments (documents : List Value) (expressions : List Expr) :
    Except QueryError (List Value) :=
  if expressions.length = 0 then .ok documents
  else filterMatching expressions documents

/-- A sort descriptor: the ordered field-to-direction entries of the
SortDescriptor object. -/
abbrev SortDescriptor := List (String × String)

/-- One sort-on key comparison: a leading minus selects descending
order on that key; values resolve through the dotted path and compare
with the JavaScript relational operators. -/
def sortKeyCompare (property : String) (a b : Value) : Ordering :=
  let desc := property.startsWith "-"
  let name := if desc then property.drop 1 else property
  let av := lodashGet a name
  let bv := lodashGet b name
  let o : Ordering :=
    if jsLess av bv then .lt else if jsLess bv av then .gt else .eq
  if desc then o.swap else o

/-- The sort-on comparator over the property list: first non-tie key
wins. -/
def sortOnCompare (properties : List String) (a b : Value) : Ordering :=
  match properties with
  | [] => .eq
  | p :: rest =>
    match sortKeyCompare p a b with
    | .eq => sortOnCompare rest a b
    | o => o

/-- Stable insertion into a sorted list: the new element, which came
earlier in the input, goes before any element it does not strictly
exceed. -/
def insertSorted (cmp : Value → Value → Ordering) (x : Value) : List Value → List Value
  | [] => [x]
  | y :: ys => if cmp x y = .gt then y :: insertSorted cmp x ys else x :: y :: ys

/-- Stable sort by a comparator (insertion sort; stability is the
contract sort-on relies on). -/
def stableSort (cmp : Value → Value → Ordering) : List Value → List Value
  | [] => []
  | x :: xs => insertSorted cmp x (stableSort cmp xs)

/-- sortDocuments of memory-store.ts lines 350-366: absent descriptor
returns the input; otherwise each entry maps to a sort-on property,
prefixed by a minus when the direction lowers to desc, and the list is
stably sorted. -/
def sortDocuments (documents : List Value) (sort : Option SortDescriptor) : List Value :=
  match sort with
  | none => documents
  | some sortDescriptor =>
    let properties := sortDescriptor.map fun entry =>
      if entry.2.toLower = "desc" then "-" ++ entry.1 else entry.1
    stableSort (sortOnCompare properties) documents

/-- Array.prototype.slice(start) on the modelled list: a non-negative
start drops that many elements; a negative start counts from the end. -/
def jsSliceFrom (documents : List Value) (start : Int) : List Value :=
  if 0 ≤ start then documents.drop start.toNat
  else documents.drop (documents.length - (-start).toNat)

/-- skipDocuments of memory-store.ts lines 368-374. -/
def skipDocuments (documents : List Value) (skip : Option Int) : List Value :=
  match skip with
  | none => documents
  | some n => jsSliceFrom documents n

/-- limitDocuments of memory-store.ts lines 376-382
(Array.prototype.slice(0, limit): a negative limit counts from the
end). -/
def limitDocuments (documents : List Value) (limit : Option Int) : List Value :=
  match limit with
  | none => documents
  | some n =>
    if 0 ≤ n then documents.take n.toNat
    else documents.take (documents.length - (-n).toNat)

/-- A collection is the array of documents of one name. -/
abbrev Collection := List Value

/-- The collection registry: an insertion-ordered mapping from names to
collections, as a JavaScript object with string keys. -/
abbrev CollectionMap := List (String × Collection)

/-- Property read on the registry: the first binding of the name. -/
def lookupCollection : CollectionMap → String → Option Collection
  | [], _ => none
  | (k, c) :: rest, name => if k = name then some c else lookupCollection rest name

/-- Property write on the registry for a name already present: replaces
the bound collection in place, preserving key order. -/
def setCollection (collections : CollectionMap) (name : String) (c : Collection) :
    CollectionMap :=
  collections.map fun entry => if entry.1 = name then (name, c) else entry

/-- The lazily creating accessor of memory-store.ts lines 42-51: a
missing name registers a fresh empty collection (appended, as property
insertion order dictates) and the call returns the collection together
with the updated registry. -/
def _getCollection (collections : CollectionMap) (name : String) :
    Collection × CollectionMap :=
  match lookupCollection collections name with
  | some collection => (collection, collections)
  | none => ([], collections ++ [(name, [])])

/-- A normalized identifier descriptor: the entries of the descriptor
object, split as the first entry (the only one the source consults,
memory-store.ts line 87) and the remaining entries. -/
structure IdentifierDescriptor where
  identifierName : String
  identifierValue : Value
  rest : List (String × Value)

/-- The per-document test document[identifierName] === identifierValue
of memory-store.ts line 89. -/
def documentMatchesIdentifier (document : Value) (descriptor : IdentifierDescriptor) : Bool :=
  getProperty document descriptor.identifierName == descriptor.identifierValue

/-- _readDocument of memory-store.ts lines 80-92: linear scan for the
first document whose identifier field strictly equals the descriptor
value. -/
def _readDocument (collection : Collection) (identifierDescriptor : IdentifierDescriptor) :
    Option Value :=
  collection.find? fun document => documentMatchesIdentifier document identifierDescriptor

/-- createDocument of memory-store.ts lines 55-67: soft failure when a
document with the same identifier value exists, otherwise the document
is pushed at the end. -/
def createDocument (collections : CollectionMap) (collectionName : String)
    (identifierDescriptor : IdentifierDescriptor) (document : Value) :
    Bool × CollectionMap :=
  let resolved := _getCollection collections collectionName
  match _readDocument resolved.1 identifierDescriptor with
  | some _ => (false, resolved.2)
  | none => (true, setCollection resolved.2 collectionName (resolved.1 ++ [document]))

/-- readDocument of memory-store.ts lines 69-78 (the registry may gain
an empty collection as a side effect). -/
def readDocument (collections : CollectionMap) (collectionName : String)
    (identifierDescriptor : IdentifierDescriptor) :
    Option Value × CollectionMap :=
  let resolved := _getCollection collections collectionName
  (_readDocument resolved.1 identifierDescriptor, resolved.2)

/-- Removal of the first element matching the identifier descriptor.
The source removes the found document with lodash pull, which deletes
the array elements identical (===) to it; the found document is the
first matching element and object identity distinguishes it from every
other element, so exactly the first matching element is removed
(aliasing one object at several positions is outside this model, see
the header comment). -/
def eraseFirstMatching (collection : Collection)
    (identifierDescriptor : IdentifierDescriptor) : Collection :=
  match collection with
  | [] => []
  | document :: rest =>
    if documentMatchesIdentifier document identifierDescriptor then rest
    else document :: eraseFirstMatching rest identifierDescriptor

/-- deleteDocument of memory-store.ts lines 126-138: false when no
document matches, otherwise the found document is pulled out of the
collection. -/
def deleteDocument (collections : CollectionMap) (collectionName : String)
    (identifierDescriptor : IdentifierDescriptor) :
    Bool × CollectionMap :=
  let resolved := _getCollection collections collectionName
  match _readDocument resolved.1 identifierDescriptor with
  | none => (false, resolved.2)
  | some _ =>
    (true, setCollection resolved.2 collectionName
      (eraseFirstMatching resolved.1 identifierDescriptor))

/-- _findDocuments of memory-store.ts lines 154-176: the fixed filter,
sort, skip, limit pipeline (an error thrown by the filter aborts the
call before the later stages run). -/
def _findDocuments (collection : Collection) (expressions : List Expr)
    (sort : Option SortDescriptor) (skip : Option Int) (limit : Option Int) :
    Except QueryError (List Value) :=
  match filterDocuments collection expressions with
  | .error e => .error e
  | .ok documents =>
    .ok (limitDocuments (skipDocuments (sortDocuments documents sort) skip) limit)

/-- findDocuments of memory-store.ts lines 140-152. -/
def findDocuments (collections : CollectionMap) (collectionName : String)
    (expressions : List Expr) (sort : Option SortDescriptor)
    (skip : Option Int) (limit : Option Int) :
    Except QueryError (List Value) × CollectionMap :=
  let resolved := _getCollection collections collectionName
  (_findDocuments resolved.1 expressions sort skip limit, resolved.2)

/-- countDocuments of memory-store.ts lines 178-184: the length of
_findDocuments with sort, skip and limit all omitted. -/
def countDocuments (collections : CollectionMap) (collectionName : String)
    (expressions : List Expr) :
    Except QueryError Nat × CollectionMap :=
  let resolved := _getCollection collections collectionName
  (Except.map List.length (_findDocuments resolved.1 expressions none none none),
    resolved.2)

/-- The closed operator set of the evaluator dispatch
(memory-store.ts lines 215-343, in source order). -/
def recognizedOperators : List String :=
  ["$equal", "$notEqual", "$greaterThan", "$greaterThanOrEqual", "$lessThan",
   "$lessThanOrEqual", "$any", "$includes", "$startsWith", "$endsWith",
   "$matches", "$some", "$every", "$length", "$not", "$and", "$or", "$nor"]

/-- Claim C1, counterexample: on the empty array the $every operator
evaluates to true (JavaScript every is vacuously true over an empty
array, memory-store.ts line 300), not false as the claim states.  The
non-array half of the claim is correct, see the amended theorem. -/
theorem c1_counterexample :
    evaluateExpression (.arr []) "$every"
        (.exprs [.mk "" "$equal" (.value (.num 0))]) "tags" = .ok true ∧
    evaluateExpression (.arr []) "$every"
        (.exprs [.mk "" "$equal" (.value (.num 0))]) "tags" ≠ .ok false := by
  have h := evaluateExpression_eq_of_evalFuel (.arr []) "$every"
    (.exprs [.mk "" "$equal" (.value (.num 0))]) "tags" 100000 (.ok true)
    (by decide) rfl
  exact ⟨h, by rw [h]; decide⟩

/-- Claim C1 (amended): for every path and sub-expression-list operand,
$every on a value that is not an array evaluates to false, while $every
on the empty array evaluates to true (vacuously), not false. -/
theorem c1_every_nonarray_false_empty_true (path : String)
    (subexpressions : List Expr) (attributeValue : Value)
    (h : ∀ xs, attributeValue ≠ Value.arr xs) :
    evaluateExpression attributeValue "$every" (.exprs subexpressions) path =
      .ok false ∧
    evaluateExpression (.arr []) "$every" (.exprs subexpressions) path =
      .ok true := by
  constructor
  · cases attributeValue
    case arr xs => exact absurd rfl (h xs)
    all_goals simp [evaluateExpression]
  · simp [evaluateExpression, everySubdocumentMatches]

/-- Witness for the amended C1 theorem at a concrete non-array value. -/
theorem c1_witness :
    evaluateExpression (.num 7) "$every" (.exprs []) "tags" = .ok false ∧
    evaluateExpression (.arr []) "$every" (.exprs []) "tags" = .ok true := by
  have h := c1_every_nonarray_false_empty_true "tags" [] (.num 7)
    (fun _ hcontra => Value.noConfusion hcontra)
  exact ⟨h.1, h.2⟩

/-- Claim C2: an operator outside the closed set makes the evaluator
raise the unsupported-operator error carrying the operator and the path;
the result is never a boolean (so never a non-match), and the error
propagates through filtering to the caller of findDocuments and
countDocuments. -/
theorem c2_unrecognized_operator_raises (attributeValue document : Value)
    (operator : String) (operand : Operand) (path : String)
    (collections : CollectionMap) (collectionName : String)
    (hop : operator ∉ recognizedOperators)
    (hcoll : lookupCollection collections collectionName = some [document]) :
    evaluateExpression attributeValue operator operand path =
      .error (.unsupportedOperator operator path) ∧
    (∀ b, evaluateExpression attributeValue operator operand path ≠ .ok b) ∧
    findDocuments collections collectionName [.mk path operator operand]
        none none none =
      (.error (.unsupportedOperator operator path), collections) ∧
    countDocuments collections collectionName [.mk path operator operand] =
      (.error (.unsupportedOperator operator path), collections) := by
  simp only [recognizedOperators, List.mem_cons, List.not_mem_nil, or_false,
    not_or] at hop
  obtain ⟨h1, h2, h3, h4, h5, h6, h7, h8, h9, h10, h11, h12, h13, h14, h15,
    h16, h17, h18⟩ := hop
  have key : ∀ av : Value, evaluateExpression av operator operand path =
      .error (.unsupportedOperator operator path) := by
    intro av
    simp [evaluateExpression, h1, h2, h3, h4, h5, h6, h7, h8, h9, h10, h11,
      h12, h13, h14, h15, h16, h17, h18]
  have hdoc : documentIsMatchingExpressions document [.mk path operator operand] =
      .error (.unsupportedOperator operator path) := by
    simp [documentIsMatchingExpressions, key]
  refine ⟨key attributeValue, ?_, ?_, ?_⟩
  · intro b hb
    rw [key attributeValue] at hb
    exact Except.noConfusion hb
  · simp [findDocuments, _getCollection, hcoll, _findDocuments, filterDocuments,
      filterMatching, hdoc]
  · simp [countDocuments, _getCollection, hcoll, _findDocuments, filterDocuments,
      filterMatching, hdoc, Except.map]

/-- Witness for C2 at the concrete operator $bogus. -/
theorem c2_witness :
    evaluateExpression .null "$bogus" (.value .null) "p" =
      .error (.unsupportedOperator "$bogus" "p") ∧
    findDocuments [("c", [Value.num 1])] "c" [.mk "p" "$bogus" (.value .null)]
        none none none =
      (.error (.unsupportedOperator "$bogus" "p"), [("c", [Value.num 1])]) := by
  have h := c2_unrecognized_operator_raises .null (.num 1) "$bogus"
    (.value .null) "p" [("c", [Value.num 1])] "c" (by decide) rfl
  exact ⟨h.1, h.2.2.1⟩

/-- Claim C9: evaluation of a finite expression list against a document
terminates.  The fuel-counting twin spends one unit of fuel at every
recursive call (into a sub-expression list, an array element, or the
next sibling), and with any fuel bounded below by the structural size of
the (document, expression list) pair it completes with the evaluator
result: every call chain strictly descends and no operator re-applies
itself to the identical pair. -/
theorem c9_evaluator_terminates (fuel : Nat) (document : Value)
    (expressions : List Expr)
    (h : sizeOf document + sizeOf expressions < fuel) :
    matchFuel fuel document expressions =
      some (documentIsMatchingExpressions document expressions) :=
  (fuelAgrees fuel).1 document expressions h

/-- Witness for C9 at a concrete nested query. -/
theorem c9_witness :
    sizeOf (Value.obj [("tags", Value.arr [Value.str "x"])]) +
        sizeOf [Expr.mk "tags" "$some"
          (Operand.exprs [Expr.mk "" "$equal" (Operand.value (Value.str "x"))])] <
      100000 ∧
    matchFuel 100000 (Value.obj [("tags", Value.arr [Value.str "x"])])
        [Expr.mk "tags" "$some"
          (Operand.exprs [Expr.mk "" "$equal" (Operand.value (Value.str "x"))])] =
      some (documentIsMatchingExpressions
        (Value.obj [("tags", Value.arr [Value.str "x"])])
        [Expr.mk "tags" "$some"
          (Operand.exprs [Expr.mk "" "$equal" (Operand.value (Value.str "x"))])]) :=
  ⟨by decide, c9_evaluator_terminates 100000 _ _ (by decide)⟩

/-- Claim C3: countDocuments returns exactly the length of the list
findDocuments returns for the same expression list with sort, skip and
limit all omitted (first conjunct, with the identical registry side
effect), and it equals the length of the bare filter result, so sort,
skip and limit are never applied before counting (second conjunct). -/
theorem c3_count_eq_find_length (collections : CollectionMap)
    (collectionName : String) (expressions : List Expr) :
    countDocuments collections collectionName expressions =
      (Except.map List.length
         (findDocuments collections collectionName expressions none none none).1,
       (findDocuments collections collectionName expressions none none none).2) ∧
    (countDocuments collections collectionName expressions).1 =
      Except.map List.length
        (filterDocuments (_getCollection collections collectionName).1 expressions) := by
  constructor
  · rfl
  · simp only [countDocuments]
    cases hf : filterDocuments (_getCollection collections collectionName).1 expressions with
    | error e => simp [_findDocuments, hf, Except.map]
    | ok ds =>
      simp [_findDocuments, hf, Except.map, sortDocuments, skipDocuments,
        limitDocuments]

/-- Claim C4: createDocument on a collection already holding a document
whose identifier field equals the descriptor value returns false and
leaves the whole store, hence the collection with its length, documents
and order, unchanged.  The model returns a plain boolean, so no
exception is possible by construction. -/
theorem c4_create_existing_identifier_soft_fail (collections : CollectionMap)
    (collectionName : String) (identifierDescriptor : IdentifierDescriptor)
    (document existing : Value) (collection : Collection)
    (hcoll : lookupCollection collections collectionName = some collection)
    (hmem : existing ∈ collection)
    (hmatch : documentMatchesIdentifier existing identifierDescriptor = true) :
    createDocument collections collectionName identifierDescriptor document =
      (false, collections) := by
  have hsome : (_readDocument collection identifierDescriptor).isSome := by
    unfold _readDocument
    exact List.find?_isSome.mpr ⟨existing, hmem, hmatch⟩
  obtain ⟨d, hd⟩ := Option.isSome_iff_exists.mp hsome
  simp [createDocument, _getCollection, hcoll, hd]

/-- Witness for C4 at a concrete one-document collection. -/
theorem c4_witness :
    createDocument [("users", [Value.obj [("id", Value.num 1)]])] "users"
        ⟨"id", Value.num 1, []⟩
        (Value.obj [("id", Value.num 1), ("x", Value.num 2)]) =
      (false, [("users", [Value.obj [("id", Value.num 1)]])]) :=
  c4_create_existing_identifier_soft_fail _ "users" _ _
    (Value.obj [("id", Value.num 1)]) _ rfl (by decide) (by decide)

/-- Appending a fresh binding at the end of the registry makes the name
resolvable. -/
theorem lookupCollection_append_self (collections : CollectionMap) (name : String)
    (c : Collection) (h : lookupCollection collections name = none) :
    lookupCollection (collections ++ [(name, c)]) name = some c := by
  induction collections with
  | nil => simp [lookupCollection]
  | cons e rest ih =>
    obtain ⟨k, col⟩ := e
    by_cases hk : k = name
    · simp [lookupCollection, hk] at h
    · simp only [List.cons_append, lookupCollection, if_neg hk]
      exact ih (by simpa [lookupCollection, if_neg hk] using h)

/-- Claim C10: a read-only operation (readDocument, findDocuments,
countDocuments) given a collection name not yet registered mutates the
registry as a side effect, registering a fresh empty collection under
that name (appended at the end, per property insertion order); after the
call the registry maps the name to the empty collection. -/
theorem c10_read_ops_register_missing_collection (collections : CollectionMap)
    (name : String) (identifierDescriptor : IdentifierDescriptor)
    (expressions : List Expr) (sort : Option SortDescriptor)
    (skip limit : Option Int)
    (h : lookupCollection collections name = none) :
    (readDocument collections name identifierDescriptor).2 =
      collections ++ [(name, [])] ∧
    (findDocuments collections name expressions sort skip limit).2 =
      collections ++ [(name, [])] ∧
    (countDocuments collections name expressions).2 =
      collections ++ [(name, [])] ∧
    lookupCollection (collections ++ [(name, [])]) name = some [] := by
  refine ⟨?_, ?_, ?_, lookupCollection_append_self collections name [] h⟩ <;>
    simp [readDocument, findDocuments, countDocuments, _getCollection, h]

/-- Witness for C10 on a registry missing the requested name. -/
theorem c10_witness :
    (readDocument [("a", [])] "b" ⟨"id", Value.num 1, []⟩).2 =
      [("a", []), ("b", [])] ∧
    (countDocuments [("a", [])] "b" []).2 = [("a", []), ("b", [])] ∧
    lookupCollection [("a", []), ("b", [])] "b" = some [] := by
  have h := c10_read_ops_register_missing_collection [("a", [])] "b"
    ⟨"id", Value.num 1, []⟩ [] none none none (by decide)
  exact ⟨h.1, h.2.2.1, h.2.2.2⟩

/-- find? returns the head of the matching suffix when everything before
it fails the predicate. -/
theorem find_first_match (p : Value → Bool) (pre : List Value) (m : Value)
    (post : List Value) (hpre : ∀ d ∈ pre, p d = false) (hm : p m = true) :
    (pre ++ m :: post).find? p = some m := by
  induction pre with
  | nil => simp [List.find?_cons_of_pos, hm]
  | cons a rest ih =>
    have ha := hpre a (by simp)
    rw [List.cons_append, List.find?_cons_of_neg _ (by simp [ha])]
    exact ih (fun d hd => hpre d (by simp [hd]))

/-- Removing the first match from a decomposed collection keeps the
prefix and suffix in order. -/
theorem eraseFirstMatching_append (identifierDescriptor : IdentifierDescriptor)
    (pre : List Value) (m : Value) (post : List Value)
    (hpre : ∀ d ∈ pre, documentMatchesIdentifier d identifierDescriptor = false)
    (hm : documentMatchesIdentifier m identifierDescriptor = true) :
    eraseFirstMatching (pre ++ m :: post) identifierDescriptor = pre ++ post := by
  induction pre with
  | nil => simp [eraseFirstMatching, hm]
  | cons a rest ih =>
    have ha := hpre a (by simp)
    simp only [List.cons_append, eraseFirstMatching, ha, Bool.false_eq_true,
      if_false, List.cons.injEq, true_and]
    exact ih (fun d hd => hpre d (by simp [hd]))

/-- Overwriting a present binding is visible to the next lookup. -/
theorem lookupCollection_setCollection (collections : CollectionMap)
    (name : String) (c0 c : Collection)
    (h : lookupCollection collections name = some c0) :
    lookupCollection (setCollection collections name c) name = some c := by
  induction collections with
  | nil => simp [lookupCollection] at h
  | cons e rest ih =>
    obtain ⟨k, col⟩ := e
    by_cases hk : k = name
    · subst hk
      simp only [setCollection, List.map_cons]
      rw [if_true]
      simp [lookupCollection]
    · simp only [lookupCollection, if_neg hk] at h
      simp only [setCollection, List.map_cons, if_neg hk]
      rw [lookupCollection, if_neg hk]
      exact ih h

/-- Claim C5, counterexample: with two documents sharing the identifier
value, deleteDocument removes only the first match, so the subsequent
readDocument with the same descriptor still finds the second document —
not absent as the unconditional claim states. -/
theorem c5_counterexample :
    (deleteDocument
        [("users", [Value.obj [("id", Value.num 1), ("a", Value.num 1)],
                    Value.obj [("id", Value.num 1), ("a", Value.num 2)]])]
        "users" ⟨"id", Value.num 1, []⟩).1 = true ∧
    (readDocument
        (deleteDocument
          [("users", [Value.obj [("id", Value.num 1), ("a", Value.num 1)],
                      Value.obj [("id", Value.num 1), ("a", Value.num 2)]])]
          "users" ⟨"id", Value.num 1, []⟩).2
        "users" ⟨"id", Value.num 1, []⟩).1 =
      some (Value.obj [("id", Value.num 1), ("a", Value.num 2)]) := by
  constructor <;> rfl

/-- Claim C5 (amended): deleteDocument returns false and changes nothing
when no document matches; otherwise it returns true and removes exactly
the first matching document, the collection length decreases by one and
the relative order of the remaining documents is preserved; the
subsequent readDocument with the same descriptor is absent provided no
remaining document matches the descriptor (with a duplicated identifier
value the read still finds the other copy, see the counterexample). -/
theorem c5_delete_first_match (collections : CollectionMap)
    (collectionName : String) (identifierDescriptor : IdentifierDescriptor)
    (collection : Collection)
    (hcoll : lookupCollection collections collectionName = some collection) :
    ((∀ d ∈ collection,
        documentMatchesIdentifier d identifierDescriptor = false) →
      deleteDocument collections collectionName identifierDescriptor =
        (false, collections)) ∧
    (∀ pre m post, collection = pre ++ m :: post →
      (∀ d ∈ pre, documentMatchesIdentifier d identifierDescriptor = false) →
      documentMatchesIdentifier m identifierDescriptor = true →
      (deleteDocument collections collectionName identifierDescriptor).1 =
        true ∧
      lookupCollection
          (deleteDocument collections collectionName identifierDescriptor).2
          collectionName = some (pre ++ post) ∧
      (pre ++ post).length + 1 = collection.length ∧
      ((∀ d ∈ pre ++ post,
          documentMatchesIdentifier d identifierDescriptor = false) →
        (readDocument
            (deleteDocument collections collectionName identifierDescriptor).2
            collectionName identifierDescriptor).1 = none)) := by
  constructor
  · intro hall
    have hnone : _readDocument collection identifierDescriptor = none := by
      unfold _readDocument
      exact List.find?_eq_none.mpr (fun d hd => by simp [hall d hd])
    simp [deleteDocument, _getCollection, hcoll, hnone]
  · intro pre m post hdecomp hpre hm
    subst hdecomp
    have hfind : _readDocument (pre ++ m :: post) identifierDescriptor = some m :=
      find_first_match _ pre m post hpre hm
    have herase :
        eraseFirstMatching (pre ++ m :: post) identifierDescriptor = pre ++ post :=
      eraseFirstMatching_append identifierDescriptor pre m post hpre hm
    have hdel :
        deleteDocument collections collectionName identifierDescriptor =
          (true, setCollection collections collectionName (pre ++ post)) := by
      simp [deleteDocument, _getCollection, hcoll, hfind, herase]
    have hlook :
        lookupCollection
          (setCollection collections collectionName (pre ++ post))
          collectionName = some (pre ++ post) :=
      lookupCollection_setCollection collections collectionName _ _ hcoll
    refine ⟨by simp [hdel], by simp [hdel, hlook], by simp_arith, ?_⟩
    intro hnomatch
    have hnone : _readDocument (pre ++ post) identifierDescriptor = none := by
      unfold _readDocument
      exact List.find?_eq_none.mpr (fun d hd => by simp [hnomatch d hd])
    simp [hdel, readDocument, _getCollection, hlook, hnone]

/-- Witness for the amended C5 theorem: deleting the unique match makes
the later read absent and shrinks the collection by one. -/
theorem c5_witness :
    (deleteDocument [("users", [Value.obj [("id", Value.num 1)],
        Value.obj [("id", Value.num 2)]])] "users" ⟨"id", Value.num 1, []⟩).1 =
      true ∧
    lookupCollection
        (deleteDocument [("users", [Value.obj [("id", Value.num 1)],
          Value.obj [("id", Value.num 2)]])] "users" ⟨"id", Value.num 1, []⟩).2
        "users" = some [Value.obj [("id", Value.num 2)]] ∧
    (readDocument
        (deleteDocument [("users", [Value.obj [("id", Value.num 1)],
          Value.obj [("id", Value.num 2)]])] "users" ⟨"id", Value.num 1, []⟩).2
        "users" ⟨"id", Value.num 1, []⟩).1 = none := by
  have h := (c5_delete_first_match
    [("users", [Value.obj [("id", Value.num 1)], Value.obj [("id", Value.num 2)]])]
    "users" ⟨"id", Value.num 1, []⟩ _ rfl).2
    [] (Value.obj [("id", Value.num 1)]) [Value.obj [("id", Value.num 2)]]
    rfl (by simp) (by decide)
  exact ⟨h.1, h.2.1, h.2.2.2 (by decide)⟩

/-- Short-circuit AND over a two-expression list, given that neither
expression raises. -/
theorem documentIsMatchingExpressions_pair (d : Value) (ea eb : Expr)
    (ba bb : Bool)
    (ha : evaluateExpression (resolveAttributeValue d ea.path) ea.operator
      ea.operand ea.path = .ok ba)
    (hb : evaluateExpression (resolveAttributeValue d eb.path) eb.operator
      eb.operand eb.path = .ok bb) :
    documentIsMatchingExpressions d [ea, eb] = .ok (ba && bb) := by
  obtain ⟨pa, oa, oda⟩ := ea
  obtain ⟨pb, ob, odb⟩ := eb
  simp only [Expr.path, Expr.operator, Expr.operand] at ha hb
  cases ba
  · simp [documentIsMatchingExpressions, ha]
  · cases bb <;> simp [documentIsMatchingExpressions, ha, hb]

/-- Claim C6, counterexample: with an unrecognized first operator the
order of the two top-level expressions is observable — [e1, e2] raises
while [e2, e1] short-circuits to an empty match set, because the second
expression never runs once the first evaluates to false. -/
theorem c6_counterexample :
    filterDocuments [Value.num 0]
        [Expr.mk "" "$bogus" (Operand.value Value.null),
         Expr.mk "" "$equal" (Operand.value (Value.num 1))] ≠
      filterDocuments [Value.num 0]
        [Expr.mk "" "$equal" (Operand.value (Value.num 1)),
         Expr.mk "" "$bogus" (Operand.value Value.null)] := by
  have h1 : documentIsMatchingExpressions (Value.num 0)
      [Expr.mk "" "$bogus" (Operand.value Value.null),
       Expr.mk "" "$equal" (Operand.value (Value.num 1))] =
      .error (.unsupportedOperator "$bogus" "") :=
    documentIsMatchingExpressions_eq_of_matchFuel _ _ 100000 _ (by decide) rfl
  have h2 : documentIsMatchingExpressions (Value.num 0)
      [Expr.mk "" "$equal" (Operand.value (Value.num 1)),
       Expr.mk "" "$bogus" (Operand.value Value.null)] = .ok false :=
    documentIsMatchingExpressions_eq_of_matchFuel _ _ 100000 _ (by decide) rfl
  simp [filterDocuments, filterMatching, h1, h2]

/-- Claim C6 (amended): for every document list and pair of top-level
expressions neither of which raises a query error on any listed
document, filtering with [e1, e2] returns the same documents as
filtering with [e2, e1]. -/
theorem c6_filter_pair_commutative (e1 e2 : Expr) (documents : List Value)
    (h : ∀ d ∈ documents,
      (∃ b1, evaluateExpression (resolveAttributeValue d e1.path) e1.operator
        e1.operand e1.path = .ok b1) ∧
      (∃ b2, evaluateExpression (resolveAttributeValue d e2.path) e2.operator
        e2.operand e2.path = .ok b2)) :
    filterDocuments documents [e1, e2] = filterDocuments documents [e2, e1] := by
  simp only [filterDocuments, List.length_cons, List.length_nil]
  norm_num
  induction documents with
  | nil => rfl
  | cons d rest ih =>
    obtain ⟨⟨b1, hb1⟩, ⟨b2, hb2⟩⟩ := h d (by simp)
    have hp1 := documentIsMatchingExpressions_pair d e1 e2 b1 b2 hb1 hb2
    have hp2 := documentIsMatchingExpressions_pair d e2 e1 b2 b1 hb2 hb1
    have hrest := ih (fun x hx => h x (by simp [hx]))
    simp only [filterMatching, hp1, hp2, hrest, Bool.and_comm]

/-- Witness for the amended C6 theorem at two error-free $equal
expressions. -/
theorem c6_witness :
    filterDocuments [Value.num 0]
        [Expr.mk "" "$equal" (Operand.value (Value.num 0)),
         Expr.mk "" "$equal" (Operand.value (Value.num 1))] =
      filterDocuments [Value.num 0]
        [Expr.mk "" "$equal" (Operand.value (Value.num 1)),
         Expr.mk "" "$equal" (Operand.value (Value.num 0))] :=
  c6_filter_pair_commutative _ _ _ (by
    intro d hd
    simp only [List.mem_singleton] at hd
    subst hd
    exact ⟨⟨true, evaluateExpression_eq_of_evalFuel _ _ _ _ 100000 _ (by decide) rfl⟩,
      ⟨false, evaluateExpression_eq_of_evalFuel _ _ _ _ 100000 _ (by decide) rfl⟩⟩)

/-- Claim C7: findDocuments is the composition filter, then sort, then
skip, then limit, in exactly that order (first and last conjuncts, the
last with skip and limit absent so every filtered and sorted document is
returned); a skip of N at least 0 drops the first N sorted results, with
N beyond the length yielding the empty list; a limit of M truncates to
the first M remaining results. -/
theorem c7_find_pipeline_order (collections : CollectionMap)
    (collectionName : String) (expressions : List Expr)
    (sort : Option SortDescriptor) (skipN limitM : Int)
    (documents : List Value)
    (hskip : 0 ≤ skipN) (hlimit : 0 ≤ limitM) :
    (findDocuments collections collectionName expressions sort
        (some skipN) (some limitM)).1 =
      Except.map
        (fun ds => limitDocuments (skipDocuments (sortDocuments ds sort)
          (some skipN)) (some limitM))
        (filterDocuments (_getCollection collections collectionName).1
          expressions) ∧
    skipDocuments documents (some skipN) = documents.drop skipN.toNat ∧
    (documents.length ≤ skipN.toNat →
      skipDocuments documents (some skipN) = []) ∧
    limitDocuments documents (some limitM) = documents.take limitM.toNat ∧
    (findDocuments collections collectionName expressions sort none none).1 =
      Except.map (fun ds => sortDocuments ds sort)
        (filterDocuments (_getCollection collections collectionName).1
          expressions) := by
  refine ⟨?_, ?_, ?_, ?_, ?_⟩
  · cases hf : filterDocuments (_getCollection collections collectionName).1
        expressions with
    | error e => simp [findDocuments, _findDocuments, hf, Except.map]
    | ok ds => simp [findDocuments, _findDocuments, hf, Except.map]
  · simp [skipDocuments, jsSliceFrom, hskip]
  · intro hlen
    simp [skipDocuments, jsSliceFrom, hskip, List.drop_eq_nil_of_le hlen]
  · simp [limitDocuments, hlimit]
  · cases hf : filterDocuments (_getCollection collections collectionName).1
        expressions with
    | error e => simp [findDocuments, _findDocuments, hf, Except.map]
    | ok ds =>
      simp [findDocuments, _findDocuments, hf, Except.map, skipDocuments,
        limitDocuments]

/-- Witness for C7: the pipeline at a concrete collection with skip 1
and limit 1, checked end to end through the theorem. -/
theorem c7_witness :
    (findDocuments [("c", [Value.num 3, Value.num 1, Value.num 2])] "c" []
        none (some 1) (some 1)).1 = .ok [Value.num 1] := by
  rw [(c7_find_pipeline_order [("c", [Value.num 3, Value.num 1, Value.num 2])]
    "c" [] none 1 1 [] (by decide) (by decide)).1]
  rfl

/-- Claim C8: readDocument returns the first document, in stored order,
whose field named by the first descriptor entry equals the descriptor
value — the equality is the decidable value equality of the model, not
reference identity — while the remaining descriptor entries are never
consulted, and with no matching document the result is absent. -/
theorem c8_read_first_match_by_value (collections : CollectionMap)
    (collectionName : String) (identifierName : String)
    (identifierValue : Value) (rest : List (String × Value))
    (collection : Collection)
    (hcoll : lookupCollection collections collectionName = some collection) :
    (∀ rest2, (readDocument collections collectionName
        ⟨identifierName, identifierValue, rest2⟩).1 =
      (readDocument collections collectionName
        ⟨identifierName, identifierValue, rest⟩).1) ∧
    ((readDocument collections collectionName
        ⟨identifierName, identifierValue, rest⟩).1 = none ↔
      ∀ d ∈ collection, getProperty d identifierName ≠ identifierValue) ∧
    (∀ pre m post, collection = pre ++ m :: post →
      (∀ d ∈ pre, getProperty d identifierName ≠ identifierValue) →
      getProperty m identifierName = identifierValue →
      (readDocument collections collectionName
          ⟨identifierName, identifierValue, rest⟩).1 = some m) := by
  refine ⟨fun rest2 => rfl, ?_, ?_⟩
  · simp [readDocument, _getCollection, hcoll, _readDocument,
      List.find?_eq_none, documentMatchesIdentifier]
  · intro pre m post hdecomp hpre hm
    subst hdecomp
    have hfind : (pre ++ m :: post).find?
        (fun d => documentMatchesIdentifier d
          ⟨identifierName, identifierValue, rest⟩) = some m :=
      find_first_match _ pre m post
        (fun d hd => by simp [documentMatchesIdentifier, hpre d hd])
        (by simp [documentMatchesIdentifier, hm])
    simp [readDocument, _getCollection, hcoll, _readDocument, hfind]

/-- Witness for C8: the first of two matching-shaped documents is
returned, and a longer descriptor tail does not change the result. -/
theorem c8_witness :
    (readDocument [("users", [Value.obj [("id", Value.num 1), ("a", Value.num 1)],
        Value.obj [("id", Value.num 2)]])] "users"
        ⟨"id", Value.num 1, [("other", Value.num 9)]⟩).1 =
      some (Value.obj [("id", Value.num 1), ("a", Value.num 1)]) := by
  have h := (c8_read_first_match_by_value
    [("users", [Value.obj [("id", Value.num 1), ("a", Value.num 1)],
      Value.obj [("id", Value.num 2)]])]
    "users" "id" (Value.num 1) [("other", Value.num 9)] _ rfl).2.2
    [] (Value.obj [("id", Value.num 1), ("a", Value.num 1)])
    [Value.obj [("id", Value.num 2)]] rfl (by simp) (by decide)
  exact h

end Layr
